import Mathlib

/-!
Verification of the Sentinel-Agent signal-generation and risk pipeline.

The development embeds the strategy module (analyzeMarket, calculateConfidence),
the risk module (calculateDynamicRisk, validateRiskParameters) and the token
bucket rate limiter (RateLimiter) as pure Lean functions over exact rational
arithmetic.  JavaScript number rounding at the output boundary
(Number.prototype.toFixed followed by parseFloat) is modelled by roundTo,
rounding to a fixed number of decimal places with ties away from the midpoint
in the upward direction, matching Math.round semantics.
-/

/-- Rounds a rational to n decimal places, as parseFloat(x.toFixed(n)) does for
decimal arguments: multiply by 10^n, round half up to an integer, divide back. -/
def roundTo (n : ℕ) (x : ℚ) : ℚ :=
  ((round (x * 10 ^ n) : ℤ) : ℚ) / 10 ^ n

theorem round_mono_rat {x y : ℚ} (h : x ≤ y) : round x ≤ round y := by
  rw [round_eq, round_eq]
  exact Int.floor_le_floor (by linarith)

theorem roundTo_mono {n : ℕ} {x y : ℚ} (h : x ≤ y) : roundTo n x ≤ roundTo n y := by
  unfold roundTo
  have hp : (0 : ℚ) < 10 ^ n := by positivity
  have h2 : round (x * 10 ^ n) ≤ round (y * 10 ^ n) :=
    round_mono_rat (by nlinarith)
  have h3 : ((round (x * 10 ^ n) : ℤ) : ℚ) ≤ ((round (y * 10 ^ n) : ℤ) : ℚ) := by
    exact_mod_cast h2
  exact div_le_div_of_nonneg_right h3 hp.le

theorem roundTo_intCast (n : ℕ) (z : ℤ) : roundTo n (z : ℚ) = z := by
  unfold roundTo
  have h10 : ((z : ℚ) * 10 ^ n) = ((z * 10 ^ n : ℤ) : ℚ) := by push_cast; ring
  rw [h10, round_intCast]
  have hp : ((10 : ℚ) ^ n) ≠ 0 := by positivity
  push_cast
  field_simp

/-! ## Data model -/

/-- Trading signal kind produced by the strategy. -/
inductive SignalKind
  | BUY
  | SELL
  | HOLD
deriving DecidableEq, Repr

/-- Trend direction reported by analyzeMarket. -/
inductive Trend
  | BULLISH
  | BEARISH
  | NEUTRAL
deriving DecidableEq, Repr

/-- Position side in the risk module. -/
inductive Side
  | LONG
  | SHORT
deriving DecidableEq, Repr

/-- OHLCV candle.  Only the fields read by the modelled functions are kept:
analyzeMarket reads close, calculateDynamicRisk reads high and low. -/
structure Candle where
  high : ℚ
  low : ℚ
  close : ℚ
deriving DecidableEq, Repr

/-- Indicator snapshot reported in a Signal (boundary-rounded values). -/
structure IndicatorSnapshot where
  ema9 : ℚ
  ema21 : ℚ
  rsi : ℚ
deriving DecidableEq, Repr

/-- Crossover flags reported in a Signal. -/
structure Crossover where
  bullish : Bool
  bearish : Bool
deriving DecidableEq, Repr

/-- Signal object returned by analyzeMarket (timestamp and candle metadata,
which no verified property touches, are omitted). -/
structure Signal where
  signal : SignalKind
  confidence : ℚ
  indicators : IndicatorSnapshot
  trend : Trend
  crossover : Crossover
  currentPrice : ℚ
deriving DecidableEq, Repr

/-- Error raised by analyzeMarket on short input. -/
inductive StrategyError
  | insufficientData
deriving DecidableEq, Repr

/-! ## Indicator computations

Modelled from the spec: the EMA and RSI series are produced by the external
technicalindicators npm package, whose code is not part of this repository;
section 4.1 of the specification fixes their semantics (EMA seeded with the
arithmetic mean of the first P closes, then previous*(1-k) + close*k with
k = 2/(P+1); RSI(14) by Wilder smoothing of average gains and losses, with
RSI = 100 when the average loss is zero). -/

/-- EMA recurrence: given the seed value, emits the whole series over the
remaining closes. -/
def emaFrom (k : ℚ) : ℚ → List ℚ → List ℚ
  | prev, [] => [prev]
  | prev, c :: rest => prev :: emaFrom k (prev * (1 - k) + c * k) rest

/-- Modelled from the spec: EMA series with period P over a list of closes.
Empty when fewer than P values are supplied. -/
def emaSeries (P : ℕ) (vals : List ℚ) : List ℚ :=
  if vals.length < P ∨ P = 0 then []
  else emaFrom (2 / ((P : ℚ) + 1)) ((vals.take P).sum / (P : ℚ)) (vals.drop P)

/-- Last element of a list of rationals, 0 as the (unreachable) default. -/
def lastValue (l : List ℚ) : ℚ := l.getLast?.getD 0

/-- Second-to-last element, none when the list has fewer than two elements
(mirrors the JavaScript access values[values.length - 2] which yields
undefined on a short list). -/
def secondLast (l : List ℚ) : Option ℚ :=
  if l.length < 2 then none else l.get? (l.length - 2)

/-- Successive close-to-close changes. -/
def changesOf (vals : List ℚ) : List ℚ :=
  (vals.zip vals.tail).map fun p => p.2 - p.1

/-- Per-step gains (positive changes, zero otherwise). -/
def gainsOf (vals : List ℚ) : List ℚ := (changesOf vals).map fun x => max x 0

/-- Per-step losses (magnitudes of negative changes, zero otherwise). -/
def lossesOf (vals : List ℚ) : List ℚ := (changesOf vals).map fun x => max (-x) 0

/-- Modelled from the spec: final Wilder-smoothed average with period P:
seed with the arithmetic mean of the first P samples, then
avg = (avg*(P-1) + x)/P for each later sample. -/
def wilderLast (P : ℕ) (xs : List ℚ) : Option ℚ :=
  if xs.length < P ∨ P = 0 then none
  else some ((xs.drop P).foldl
    (fun a x => (a * ((P : ℚ) - 1) + x) / (P : ℚ)) ((xs.take P).sum / (P : ℚ)))

/-- Modelled from the spec: RSI value from final average gain and loss;
100 when the average loss is zero. -/
def rsiFromAverages (avgGain avgLoss : ℚ) : ℚ :=
  if avgLoss = 0 then 100 else 100 - 100 / (1 + avgGain / avgLoss)

/-- Modelled from the spec: most recent RSI(P) value over a close series. -/
def rsiLast (P : ℕ) (vals : List ℚ) : Option ℚ :=
  match wilderLast P (gainsOf vals), wilderLast P (lossesOf vals) with
  | some g, some l => some (rsiFromAverages g l)
  | _, _ => none

/-! ## Strategy module (src/strategy.js) -/

/-- Close prices extracted from the candle sequence. -/
def closesOf (candles : List Candle) : List ℚ := candles.map Candle.close

/-- Most recent EMA(9) value. -/
def currentEMA9 (candles : List Candle) : ℚ := lastValue (emaSeries 9 (closesOf candles))

/-- Most recent EMA(21) value. -/
def currentEMA21 (candles : List Candle) : ℚ := lastValue (emaSeries 21 (closesOf candles))

/-- Most recent RSI(14) value as used by analyzeMarket. -/
def currentRSIof (candles : List Candle) : ℚ := (rsiLast 14 (closesOf candles)).getD 0

/-- Previous EMA(9) value, when two points exist. -/
def previousEMA9 (candles : List Candle) : Option ℚ := secondLast (emaSeries 9 (closesOf candles))

/-- Previous EMA(21) value, when two points exist. -/
def previousEMA21 (candles : List Candle) : Option ℚ := secondLast (emaSeries 21 (closesOf candles))

/-- Bullish crossover flag: previous fast at or below previous slow and current
fast above current slow; false when either previous value is undefined. -/
def bullishCrossover (candles : List Candle) : Bool :=
  match previousEMA9 candles, previousEMA21 candles with
  | some p9, some p21 => decide (p9 ≤ p21 ∧ currentEMA21 candles < currentEMA9 candles)
  | _, _ => false

/-- Bearish crossover flag, the mirror condition. -/
def bearishCrossover (candles : List Candle) : Bool :=
  match previousEMA9 candles, previousEMA21 candles with
  | some p9, some p21 => decide (p21 ≤ p9 ∧ currentEMA9 candles < currentEMA21 candles)
  | _, _ => false

/-- Trend direction from the current EMA pair. -/
def trendOf (candles : List Candle) : Trend :=
  if currentEMA21 candles < currentEMA9 candles then .BULLISH
  else if currentEMA9 candles < currentEMA21 candles then .BEARISH
  else .NEUTRAL

/-- Confidence score for a signal, translated from calculateConfidence in
src/strategy.js: base 50, EMA-separation bonus capped at 20, RSI sweet-spot
bonus of 15 (else 5), crossover bonus of 15, then Math.round and cap at 100. -/
def calculateConfidence (ema9 ema21 rsi : ℚ) (signalType : SignalKind) (crossover : Bool) : ℚ :=
  let base : ℚ := 50
  let conf : ℚ :=
    match signalType with
    | .BUY =>
      let emaSeparation := (ema9 - ema21) / ema21 * 100
      let c1 := base + min (emaSeparation * 10) 20
      let c2 := if 55 ≤ rsi ∧ rsi ≤ 65 then c1 + 15 else c1 + 5
      if crossover then c2 + 15 else c2
    | .SELL =>
      let emaSeparation := (ema21 - ema9) / ema21 * 100
      let c1 := base + min (emaSeparation * 10) 20
      let c2 := if 35 ≤ rsi ∧ rsi ≤ 45 then c1 + 15 else c1 + 5
      if crossover then c2 + 15 else c2
    | .HOLD => base
  ((min (round conf) 100 : ℤ) : ℚ)

/-- analyzeMarket from src/strategy.js: guard on at least 21 candles, compute
indicators, classify BUY / SELL / HOLD in that rule order, score confidence,
and report boundary-rounded indicator values. -/
def analyzeMarket (candles : List Candle) : Except StrategyError Signal :=
  if candles.length < 21 then .error .insufficientData
  else
    let e9 := currentEMA9 candles
    let e21 := currentEMA21 candles
    let rsi := currentRSIof candles
    let sc : SignalKind × ℚ :=
      if e21 < e9 ∧ 50 < rsi ∧ rsi < 70 then
        (.BUY, calculateConfidence e9 e21 rsi .BUY (bullishCrossover candles))
      else if e9 < e21 ∧ 30 < rsi ∧ rsi < 50 then
        (.SELL, calculateConfidence e9 e21 rsi .SELL (bearishCrossover candles))
      else (.HOLD, 0)
    .ok { signal := sc.1
          confidence := sc.2
          indicators := { ema9 := roundTo 6 e9, ema21 := roundTo 6 e21, rsi := roundTo 2 rsi }
          trend := trendOf candles
          crossover := { bullish := bullishCrossover candles, bearish := bearishCrossover candles }
          currentPrice := lastValue (closesOf candles) }

/-! ## Risk module (the risk management source file) -/

/-- Error raised by calculateDynamicRisk. -/
inductive RiskError
  | insufficientData
  | invalidEntry
deriving DecidableEq, Repr

/-- Risk parameters returned by calculateDynamicRisk.  In the HOLD variant the
JavaScript object carries null side, stop loss and take profit and omits the
percent fields; both are modelled as none. -/
structure RiskParameters where
  signal : SignalKind
  side : Option Side
  entry : ℚ
  stopLoss : Option ℚ
  takeProfit : Option ℚ
  quantity : ℚ
  positionSizeUSDT : ℚ
  riskRewardRatio : ℚ
  riskAmount : ℚ
  potentialProfit : ℚ
  stopLossPercent : Option ℚ
  takeProfitPercent : Option ℚ
deriving DecidableEq, Repr

/-- Fixed stop-loss buffer of 0.5 percent. -/
def bufferPercent : ℚ := 1 / 200

/-- Last five candles, as candles.slice(-5) under the length-at-least-5 guard. -/
def last5 (candles : List Candle) : List Candle := candles.drop (candles.length - 5)

/-- Minimum low of the last five candles. -/
def minLow (candles : List Candle) : ℚ := (((last5 candles).map Candle.low).min?).getD 0

/-- Maximum high of the last five candles. -/
def maxHigh (candles : List Candle) : ℚ := (((last5 candles).map Candle.high).max?).getD 0

/-- BUY-side raw stop loss: minimum low of the last five candles minus the
0.5 percent buffer. -/
def buyStopLoss (candles : List Candle) : ℚ := minLow candles * (1 - bufferPercent)

/-- SELL-side raw stop loss: maximum high of the last five candles plus the
0.5 percent buffer. -/
def sellStopLoss (candles : List Candle) : ℚ := maxHigh candles * (1 + bufferPercent)

/-- Entry resolution, from the expression entryPrice or-else signal.currentPrice:
a provided override of 0 is falsy in JavaScript and falls back to the current
price, any other provided value is used as is. -/
def resolveEntry (signal : Signal) (entryPrice : Option ℚ) : ℚ :=
  match entryPrice with
  | some p => if p = 0 then signal.currentPrice else p
  | none => signal.currentPrice

/-- Shared tail of the BUY and SELL branches of calculateDynamicRisk: position
size, per-unit risk and profit, amounts, ratio, and boundary rounding. -/
def tradeParameters (sig : SignalKind) (side : Side) (entry stopLoss takeProfit
    positionSizeUSDT : ℚ) : RiskParameters :=
  let quantity := positionSizeUSDT / entry
  let riskPerUnit := |entry - stopLoss|
  let profitPerUnit := |takeProfit - entry|
  let riskAmount := riskPerUnit * quantity
  let potentialProfit := profitPerUnit * quantity
  let riskRewardRatio := profitPerUnit / riskPerUnit
  { signal := sig
    side := some side
    entry := roundTo 6 entry
    stopLoss := some (roundTo 6 stopLoss)
    takeProfit := some (roundTo 6 takeProfit)
    quantity := roundTo 4 quantity
    positionSizeUSDT := positionSizeUSDT
    riskRewardRatio := roundTo 2 riskRewardRatio
    riskAmount := roundTo 2 riskAmount
    potentialProfit := roundTo 2 potentialProfit
    stopLossPercent := some (roundTo 2 (|entry - stopLoss| / entry * 100))
    takeProfitPercent := some (roundTo 2 (|takeProfit - entry| / entry * 100)) }

/-- calculateDynamicRisk from the risk module: guard on at least 5 candles,
resolve the entry price and reject a non-positive one, then derive stop loss,
take profit and sizes per side, or the all-null HOLD variant. -/
def calculateDynamicRisk (signal : Signal) (candles : List Candle)
    (entryPrice : Option ℚ) (positionSizeUSDT : ℚ) : Except RiskError RiskParameters :=
  if candles.length < 5 then .error .insufficientData
  else
    let entry := resolveEntry signal entryPrice
    if entry ≤ 0 then .error .invalidEntry
    else
      match signal.signal with
      | .BUY =>
        let stopLoss := buyStopLoss candles
        let riskDistance := entry - stopLoss
        let takeProfit := entry + riskDistance * 2
        .ok (tradeParameters .BUY .LONG entry stopLoss takeProfit positionSizeUSDT)
      | .SELL =>
        let stopLoss := sellStopLoss candles
        let riskDistance := stopLoss - entry
        let takeProfit := entry - riskDistance * 2
        .ok (tradeParameters .SELL .SHORT entry stopLoss takeProfit positionSizeUSDT)
      | .HOLD =>
        .ok { signal := .HOLD
              side := none
              entry := entry
              stopLoss := none
              takeProfit := none
              quantity := 0
              positionSizeUSDT := 0
              riskRewardRatio := 0
              riskAmount := 0
              potentialProfit := 0
              stopLossPercent := none
              takeProfitPercent := none }

/-- Reason entries appended by validateRiskParameters.  The JavaScript strings
are abstracted to tags naming the violated rule; withinLimits stands for the
single informational entry of a fully valid result. -/
inductive ValidationReason
  | rrBelowMin
  | stopLossTooWide
  | riskTooHigh
  | withinLimits
deriving DecidableEq, Repr

/-- Risk limits with the source defaults maxRiskPercent 2, minRRRatio 1.5,
maxStopLossPercent 5. -/
structure Limits where
  maxRiskPercent : ℚ := 2
  minRRRatio : ℚ := 3 / 2
  maxStopLossPercent : ℚ := 5
deriving DecidableEq, Repr

/-- Validation result of validateRiskParameters. -/
structure ValidationResult where
  valid : Bool
  reasons : List ValidationReason
  riskPercent : ℚ
deriving DecidableEq, Repr

/-- Hardcoded reference account size used by the risk-percent check. -/
def accountSize : ℚ := 5000

/-- validateRiskParameters from the risk module, translated in its sequential
style: a valid flag starting true and a reason list starting empty, each of the
three checks independently clearing the flag and appending its reason. -/
def validateRiskParameters (riskParams : RiskParameters) (limits : Limits) : ValidationResult :=
  let valid0 := true
  let reasons0 : List ValidationReason := []
  let step1 : Bool × List ValidationReason :=
    if riskParams.riskRewardRatio < limits.minRRRatio then (false, reasons0 ++ [.rrBelowMin])
    else (valid0, reasons0)
  let step2 : Bool × List ValidationReason :=
    match riskParams.stopLossPercent with
    | some v =>
      if limits.maxStopLossPercent < v then (false, step1.2 ++ [.stopLossTooWide]) else step1
    | none => step1
  let riskPercent := riskParams.riskAmount / accountSize * 100
  let step3 : Bool × List ValidationReason :=
    if limits.maxRiskPercent < riskPercent then (false, step2.2 ++ [.riskTooHigh]) else step2
  { valid := step3.1
    reasons := if step3.2.isEmpty then [.withinLimits] else step3.2
    riskPercent := roundTo 2 riskPercent }

/-! ## Token bucket rate limiter -/

/-- Token bucket state of a RateLimiter instance.  Instants are rational
millisecond timestamps; the queue and processing fields of the source, which
no method ever reads, are omitted. -/
structure RateLimiter where
  maxTokens : ℚ
  tokens : ℚ
  refillRate : ℚ
  lastRefill : ℚ
deriving DecidableEq, Repr

/-- refillTokens: add elapsed-seconds times refill rate, capped at capacity,
and remember the refill instant. -/
def refillTokens (now : ℚ) (s : RateLimiter) : RateLimiter :=
  { s with
    tokens := min s.maxTokens (s.tokens + (now - s.lastRefill) / 1000 * s.refillRate)
    lastRefill := now }

/-- tryConsume: refill first, then consume cost tokens on sufficiency, else
fail leaving the refilled state untouched. -/
def tryConsume (now cost : ℚ) (s : RateLimiter) : Bool × RateLimiter :=
  let s1 := refillTokens now s
  if cost ≤ s1.tokens then (true, { s1 with tokens := s1.tokens - cost })
  else (false, s1)

/-- reset: restore a full bucket at the given instant. -/
def reset (now : ℚ) (s : RateLimiter) : RateLimiter :=
  { s with tokens := s.maxTokens, lastRefill := now }

/-- Retry delay of waitForToken in milliseconds after a failed attempt:
the ceiling of (tokensNeeded / refillRate) seconds, floored at 100 ms. -/
def retryDelay (s : RateLimiter) (cost : ℚ) : ℤ :=
  max ⌈(cost - s.tokens) / s.refillRate * 1000⌉ 100

/-- waitForToken as a fuel-indexed polling loop: attempt tryConsume now; on
failure schedule the next attempt after retryDelay milliseconds.  The fuel
parameter only truncates observation of the unbounded loop; the source loop
has no bound and terminates solely by a successful tryConsume. -/
def waitForTokenFuel : ℕ → RateLimiter → ℚ → ℚ → Option (RateLimiter × ℚ)
  | 0, _, _, _ => none
  | fuel + 1, s, cost, now =>
    let r := tryConsume now cost s
    if r.1 then some (r.2, now)
    else waitForTokenFuel fuel r.2 cost (now + ((retryDelay r.2 cost : ℤ) : ℚ))

/-! ## Concrete fixtures used by witnesses and counterexamples -/

/-- Five identical candles with high 110, low 100, close 105. -/
def candlesX : List Candle := List.replicate 5 { high := 110, low := 100, close := 105 }

/-- A BUY signal at current price 105 over candlesX. -/
def buySignalX : Signal :=
  { signal := .BUY, confidence := 75, indicators := { ema9 := 0, ema21 := 0, rsi := 60 }
    trend := .BULLISH, crossover := { bullish := false, bearish := false }, currentPrice := 105 }

/-- A SELL signal at current price 105 over candlesX. -/
def sellSignalX : Signal :=
  { signal := .SELL, confidence := 75, indicators := { ema9 := 0, ema21 := 0, rsi := 40 }
    trend := .BEARISH, crossover := { bullish := false, bearish := false }, currentPrice := 105 }

/-- Twenty-one identical candles with all prices 1. -/
def flatCandles : List Candle := List.replicate 21 { high := 1, low := 1, close := 1 }

/-- A full token bucket: capacity 5, 5 tokens, refill 5 per second, epoch 0. -/
def limiterFull : RateLimiter := { maxTokens := 5, tokens := 5, refillRate := 5, lastRefill := 0 }

/-- An empty token bucket: capacity 5, 0 tokens, refill 5 per second, epoch 0. -/
def limiterEmpty : RateLimiter := { maxTokens := 5, tokens := 0, refillRate := 5, lastRefill := 0 }

/-! ## C3: insufficient-data errors -/

/-- C3: analyzeMarket fails with the insufficient-data error exactly when fewer
than 21 candles are supplied, and calculateDynamicRisk fails with it exactly
when fewer than 5 candles are supplied; failure produces no result. -/
theorem insufficientData_iff :
    ∀ (candles : List Candle),
      ((analyzeMarket candles = .error .insufficientData) ↔ candles.length < 21) ∧
      (∀ (s : Signal) (o : Option ℚ) (p : ℚ),
        (calculateDynamicRisk s candles o p = .error .insufficientData) ↔
          candles.length < 5) := by
  intro candles
  constructor
  · by_cases h : candles.length < 21
    · simp [analyzeMarket, h]
    · simp [analyzeMarket, h]
  · intro s o p
    by_cases h5 : candles.length < 5
    · simp [calculateDynamicRisk, h5]
    · by_cases he : resolveEntry s o ≤ 0
      · simp [calculateDynamicRisk, h5, he]
      · cases hs : s.signal <;> simp [calculateDynamicRisk, h5, he, hs]

/-! ## C4: entry resolution (corrected) -/

/-- C4 counterexample: with a provided negative override -1 and a positive
current price 105, the claimed resolution rule (override only when positive)
would use 105 and succeed, but the code uses the truthy -1 and fails with the
invalid-entry error. -/
theorem entry_rule_counterexample :
    calculateDynamicRisk buySignalX candlesX (some (-1)) 100 = .error .invalidEntry ∧
      (0 : ℚ) < (if (0 : ℚ) < -1 then (-1 : ℚ) else buySignalX.currentPrice) := by
  constructor
  · norm_num [calculateDynamicRisk, resolveEntry, candlesX, buySignalX]
  · norm_num [buySignalX]

/-- C4 (amended): the entry price used is the override whenever one is provided
and non-zero (JavaScript truthiness), falling back to the signal current price
when absent or zero; the call fails with the invalid-entry error exactly when
the so-resolved entry is non-positive. -/
theorem entry_rule :
    ∀ (s : Signal) (candles : List Candle) (o : Option ℚ) (p : ℚ),
      5 ≤ candles.length →
      ((calculateDynamicRisk s candles o p = .error .invalidEntry) ↔ resolveEntry s o ≤ 0) ∧
      (∀ v : ℚ, o = some v → v ≠ 0 → resolveEntry s o = v) ∧
      (o = none → resolveEntry s o = s.currentPrice) ∧
      (o = some 0 → resolveEntry s o = s.currentPrice) := by
  intro s candles o p hlen
  have h5 : ¬ candles.length < 5 := by omega
  refine ⟨?_, ?_, ?_, ?_⟩
  · by_cases he : resolveEntry s o ≤ 0
    · simp [calculateDynamicRisk, h5, he]
    · cases hs : s.signal <;> simp [calculateDynamicRisk, h5, he, hs]
  · intro v hv hv0
    simp [resolveEntry, hv, hv0]
  · intro hn; simp [resolveEntry, hn]
  · intro h0; simp [resolveEntry, h0]

/-- C4 witness: at five candles with override 3 over a signal priced 105, the
amended rule fires: the resolved entry is the override 3 and, it being
positive, the call does not fail with the invalid-entry error. -/
theorem entry_rule_witness :
    ((calculateDynamicRisk buySignalX candlesX (some 3) 100 = .error .invalidEntry) ↔
      resolveEntry buySignalX (some 3) ≤ 0) ∧
      resolveEntry buySignalX (some 3) = 3 := by
  have h := entry_rule buySignalX candlesX (some 3) 100 (by simp [candlesX])
  exact ⟨h.1, h.2.1 3 rfl (by norm_num)⟩

/-! ## C7: risk-parameter validation -/

/-- Boolean form of the stop-loss width check of validateRiskParameters
(the JavaScript comparison is false when the field is absent). -/
def slTooWide (rp : RiskParameters) (limits : Limits) : Bool :=
  match rp.stopLossPercent with
  | some v => decide (limits.maxStopLossPercent < v)
  | none => false

/-- C7: validateRiskParameters evaluates all three checks without
short-circuiting, is valid exactly when none fails, lists every violated rule
in check order (a single informational entry when valid), and always returns
the risk percent. -/
theorem validateRiskParameters_spec :
    ∀ (rp : RiskParameters) (limits : Limits),
      ((validateRiskParameters rp limits).valid = true ↔
        ¬(rp.riskRewardRatio < limits.minRRRatio) ∧ ¬(slTooWide rp limits = true) ∧
          ¬(limits.maxRiskPercent < rp.riskAmount / accountSize * 100)) ∧
      ((validateRiskParameters rp limits).reasons =
        (if (rp.riskRewardRatio < limits.minRRRatio) ∨ slTooWide rp limits = true ∨
            limits.maxRiskPercent < rp.riskAmount / accountSize * 100 then
          ((if rp.riskRewardRatio < limits.minRRRatio then [ValidationReason.rrBelowMin]
              else []) ++
            (if slTooWide rp limits then [ValidationReason.stopLossTooWide] else []) ++
            (if limits.maxRiskPercent < rp.riskAmount / accountSize * 100 then
              [ValidationReason.riskTooHigh] else []))
        else [ValidationReason.withinLimits])) ∧
      ((validateRiskParameters rp limits).riskPercent =
        roundTo 2 (rp.riskAmount / accountSize * 100)) := by
  intro rp limits
  by_cases h1 : rp.riskRewardRatio < limits.minRRRatio <;>
    by_cases h3 : limits.maxRiskPercent < rp.riskAmount / accountSize * 100 <;>
      cases ho : rp.stopLossPercent with
      | none => simp [validateRiskParameters, slTooWide, ho, h1, h3]
      | some v =>
        by_cases h2 : limits.maxStopLossPercent < v <;>
          simp [validateRiskParameters, slTooWide, ho, h1, h2, h3]

/-! ## C8: token bucket invariants -/

/-- C8: tryConsume refills to min(capacity, tokens + elapsed seconds times
refill rate) first, succeeds and subtracts exactly the cost iff the refilled
balance covers it, otherwise fails leaving the refilled balance untouched;
tokens stay within [0, capacity] after refill, tryConsume and reset. -/
theorem tokenBucket_spec :
    ∀ (s : RateLimiter) (now cost : ℚ),
      0 ≤ s.maxTokens → 0 ≤ s.tokens → s.tokens ≤ s.maxTokens →
      s.lastRefill ≤ now → 0 ≤ s.refillRate → 0 ≤ cost →
      ((refillTokens now s).tokens
          = min s.maxTokens (s.tokens + (now - s.lastRefill) / 1000 * s.refillRate)) ∧
      ((tryConsume now cost s).1 = true ↔ cost ≤ (refillTokens now s).tokens) ∧
      ((tryConsume now cost s).1 = true →
        (tryConsume now cost s).2.tokens = (refillTokens now s).tokens - cost) ∧
      ((tryConsume now cost s).1 = false →
        (tryConsume now cost s).2.tokens = (refillTokens now s).tokens) ∧
      (0 ≤ (refillTokens now s).tokens ∧ (refillTokens now s).tokens ≤ s.maxTokens) ∧
      (0 ≤ (tryConsume now cost s).2.tokens ∧ (tryConsume now cost s).2.tokens ≤ s.maxTokens) ∧
      ((reset now s).tokens = s.maxTokens ∧ 0 ≤ (reset now s).tokens ∧
        (reset now s).tokens ≤ s.maxTokens) := by
  intro s now cost hcap htok0 htokc helapsed hrate hcost
  have hre : 0 ≤ (now - s.lastRefill) / 1000 * s.refillRate := by
    have h1 : 0 ≤ now - s.lastRefill := by linarith
    positivity
  have hrefill0 : 0 ≤ (refillTokens now s).tokens := by
    simp only [refillTokens]
    exact le_min hcap (by linarith)
  have hrefillc : (refillTokens now s).tokens ≤ s.maxTokens := by
    simp only [refillTokens]
    exact min_le_left _ _
  by_cases h : cost ≤ (refillTokens now s).tokens
  · refine ⟨rfl, ?_, ?_, ?_, ⟨hrefill0, hrefillc⟩, ?_, by simp [reset, hcap]⟩ <;>
      simp only [tryConsume, h, if_pos, if_true] <;> try simp
    constructor
    · linarith
    · linarith [hrefillc]
  · refine ⟨rfl, ?_, ?_, ?_, ⟨hrefill0, hrefillc⟩, ?_, by simp [reset, hcap]⟩ <;>
      simp only [tryConsume, h, if_neg, if_false] <;> try simp [h]
    exact ⟨hrefill0, hrefillc⟩

/-- C8 witness: a full bucket of capacity 5 at the same instant accepts a
consume of cost 1 and stays within range. -/
theorem tokenBucket_spec_witness :
    ((tryConsume 0 1 limiterFull).1 = true ↔ (1 : ℚ) ≤ (refillTokens 0 limiterFull).tokens) ∧
      0 ≤ (tryConsume 0 1 limiterFull).2.tokens ∧
      (tryConsume 0 1 limiterFull).2.tokens ≤ limiterFull.maxTokens := by
  have h := tokenBucket_spec limiterFull 0 1 (by norm_num [limiterFull])
    (by norm_num [limiterFull]) (by norm_num [limiterFull]) (by norm_num [limiterFull])
    (by norm_num [limiterFull]) (by norm_num)
  exact ⟨h.2.1, h.2.2.2.2.2.1⟩

/-! ## C9: waitForToken retry schedule -/

theorem waitForTokenFuel_success :
    ∀ (fuel : ℕ) (s : RateLimiter) (cost now : ℚ) (s' : RateLimiter) (t : ℚ),
      waitForTokenFuel fuel s cost now = some (s', t) →
      ∃ s₀, (tryConsume t cost s₀).1 = true ∧ (tryConsume t cost s₀).2 = s' := by
  intro fuel
  induction fuel with
  | zero => intro s cost now s' t h; simp [waitForTokenFuel] at h
  | succ n ih =>
    intro s cost now s' t h
    simp only [waitForTokenFuel] at h
    by_cases hr : (tryConsume now cost s).1 = true
    · rw [if_pos hr] at h
      simp only [Option.some.injEq, Prod.mk.injEq] at h
      exact ⟨s, by rw [← h.2]; exact hr, by rw [← h.2, h.1]⟩
    · rw [if_neg hr] at h
      exact ih _ _ _ _ _ h

theorem waitForTokenFuel_unbounded :
    ∀ (fuel : ℕ) (s : RateLimiter) (cost now : ℚ),
      s.maxTokens < cost → waitForTokenFuel fuel s cost now = none := by
  intro fuel
  induction fuel with
  | zero => intro s cost now _; simp [waitForTokenFuel]
  | succ n ih =>
    intro s cost now hc
    have hfail : (tryConsume now cost s).1 = false := by
      have hlt : ¬ (cost ≤ (refillTokens now s).tokens) := by
        simp only [refillTokens]
        intro hle
        have hmin := min_le_left s.maxTokens
          (s.tokens + (now - s.lastRefill) / 1000 * s.refillRate)
        linarith
      simp [tryConsume, hlt]
    have hmax : (tryConsume now cost s).2.maxTokens = s.maxTokens := by
      simp only [tryConsume, refillTokens]
      split <;> rfl
    simp only [waitForTokenFuel, hfail, Bool.false_eq_true, if_false]
    exact ih _ _ _ (by rw [hmax]; exact hc)

/-- C9: after every failed tryConsume the next attempt is scheduled exactly
max(ceil((cost - available tokens) / refillRate × 1000), 100) milliseconds
later; a produced result always comes from a successful tryConsume at the
final attempt instant; and when the cost exceeds the bucket capacity no amount
of polling ever produces a result (the loop has no upper bound on waiting). -/
theorem waitForToken_spec :
    ∀ (fuel : ℕ) (s : RateLimiter) (cost now : ℚ),
      ((tryConsume now cost s).1 = false →
        waitForTokenFuel (fuel + 1) s cost now
          = waitForTokenFuel fuel (tryConsume now cost s).2 cost
              (now + ((max ⌈(cost - (tryConsume now cost s).2.tokens)
                  / (tryConsume now cost s).2.refillRate * 1000⌉ 100 : ℤ) : ℚ))) ∧
      (∀ (s' : RateLimiter) (t : ℚ), waitForTokenFuel fuel s cost now = some (s', t) →
        ∃ s₀, (tryConsume t cost s₀).1 = true ∧ (tryConsume t cost s₀).2 = s') ∧
      (s.maxTokens < cost → waitForTokenFuel fuel s cost now = none) := by
  intro fuel s cost now
  refine ⟨?_, fun s' t h => waitForTokenFuel_success fuel s cost now s' t h,
    fun hc => waitForTokenFuel_unbounded fuel s cost now hc⟩
  intro hfail
  simp [waitForTokenFuel, hfail, retryDelay]

/-- C9 witness: an empty bucket with refill 5 per second asked for cost 1
fails its first attempt and schedules the next one per the delay formula, and
a cost of 6 against capacity 5 never succeeds within three polls. -/
theorem waitForToken_spec_witness :
    waitForTokenFuel 1 limiterEmpty 1 0
        = waitForTokenFuel 0 (tryConsume 0 1 limiterEmpty).2 1
            (0 + ((max ⌈((1 : ℚ) - (tryConsume 0 1 limiterEmpty).2.tokens)
                / (tryConsume 0 1 limiterEmpty).2.refillRate * 1000⌉ 100 : ℤ) : ℚ)) ∧
      waitForTokenFuel 3 limiterFull 6 0 = none := by
  constructor
  · exact (waitForToken_spec 0 limiterEmpty 1 0).1
      (by norm_num [tryConsume, refillTokens, limiterEmpty])
  · exact (waitForToken_spec 3 limiterFull 6 0).2.2 (by norm_num [limiterFull])

/-! ## C1: risk-reward ratio (corrected) -/

/-- C1 counterexample: a BUY trade whose resolved entry sits exactly on the raw
stop loss (entry 199/2 against a minimum low of 100, buffered to 199/2) is
accepted, yet its reported riskRewardRatio is 0, not 2 (the JavaScript source
divides zero by zero there, producing NaN rather than 2). -/
theorem riskRewardRatio_counterexample :
    (calculateDynamicRisk buySignalX candlesX (some (199 / 2)) 100).map
      RiskParameters.riskRewardRatio = .ok 0 := by
  norm_num [calculateDynamicRisk, resolveEntry, buySignalX, candlesX, buyStopLoss, minLow,
    last5, bufferPercent, tradeParameters, List.replicate, List.min?_cons', Except.map,
    roundTo, round_eq]

/-- C1 (amended): whenever calculateDynamicRisk accepts a BUY or SELL call and
the resolved entry differs from the raw buffered stop loss, the returned
riskRewardRatio equals exactly 2 (in the degenerate equal case the 0/0 ratio
is reported as 0 in this model, NaN in JavaScript). -/
theorem riskRewardRatio_two :
    ∀ (s : Signal) (candles : List Candle) (o : Option ℚ) (p : ℚ),
      5 ≤ candles.length → 0 < resolveEntry s o →
      (s.signal = .BUY → resolveEntry s o ≠ buyStopLoss candles →
        (calculateDynamicRisk s candles o p).map RiskParameters.riskRewardRatio = .ok 2) ∧
      (s.signal = .SELL → resolveEntry s o ≠ sellStopLoss candles →
        (calculateDynamicRisk s candles o p).map RiskParameters.riskRewardRatio = .ok 2) := by
  intro s candles o p hlen hpos
  have h5 : ¬ candles.length < 5 := by omega
  have he : ¬ resolveEntry s o ≤ 0 := not_le.mpr hpos
  have habs2 : ∀ d : ℚ, d ≠ 0 → |d * 2| / |d| = 2 := by
    intro d hd
    rw [abs_mul, mul_comm, mul_div_assoc, div_self (abs_ne_zero.mpr hd)]
    norm_num
  constructor
  · intro hb hne
    simp only [calculateDynamicRisk, h5, ite_false, he, hb, tradeParameters, Except.map]
    have h1 : resolveEntry s o + (resolveEntry s o - buyStopLoss candles) * 2
        - resolveEntry s o = (resolveEntry s o - buyStopLoss candles) * 2 := by ring
    simp only [h1]
    rw [habs2 _ (sub_ne_zero.mpr hne)]
    norm_num [roundTo, round_eq]
  · intro hb hne
    simp only [calculateDynamicRisk, h5, ite_false, he, hb, tradeParameters, Except.map]
    have h1 : resolveEntry s o - (sellStopLoss candles - resolveEntry s o) * 2
        - resolveEntry s o = (resolveEntry s o - sellStopLoss candles) * 2 := by ring
    simp only [h1]
    rw [habs2 _ (sub_ne_zero.mpr hne)]
    norm_num [roundTo, round_eq]

/-- C1 witness: a BUY at entry 105 over lows of 100 (stop 199/2) and a SELL at
entry 105 over highs of 110 (stop 2211/20) both yield ratio exactly 2. -/
theorem riskRewardRatio_two_witness :
    (calculateDynamicRisk buySignalX candlesX none 100).map
        RiskParameters.riskRewardRatio = .ok 2 ∧
      (calculateDynamicRisk sellSignalX candlesX none 100).map
        RiskParameters.riskRewardRatio = .ok 2 := by
  constructor
  · exact (riskRewardRatio_two buySignalX candlesX none 100 (by simp [candlesX])
      (by norm_num [resolveEntry, buySignalX])).1 rfl
      (by norm_num [resolveEntry, buySignalX, buyStopLoss, minLow, last5, bufferPercent,
        candlesX, List.replicate, List.min?_cons'])
  · exact (riskRewardRatio_two sellSignalX candlesX none 100 (by simp [candlesX])
      (by norm_num [resolveEntry, sellSignalX])).2 rfl
      (by norm_num [resolveEntry, sellSignalX, sellStopLoss, maxHigh, last5, bufferPercent,
        candlesX, List.replicate, List.max?_cons'])

/-! ## Indicator lemmas -/

theorem emaFrom_ne_nil (k prev : ℚ) (l : List ℚ) : emaFrom k prev l ≠ [] := by
  cases l <;> simp [emaFrom]

theorem emaFrom_const (k c : ℚ) :
    ∀ n : ℕ, emaFrom k c (List.replicate n c) = List.replicate (n + 1) c := by
  intro n
  induction n with
  | zero => simp [emaFrom, List.replicate]
  | succ m ih =>
    rw [List.replicate_succ]
    show c :: emaFrom k (c * (1 - k) + c * k) (List.replicate m c) = _
    have hc : c * (1 - k) + c * k = c := by ring
    rw [hc, ih, ← List.replicate_succ]

theorem emaSeries_const (P n : ℕ) (hP : 0 < P) (h : P ≤ n) (c : ℚ) :
    emaSeries P (List.replicate n c) = List.replicate (n - P + 1) c := by
  have hguard : ¬((List.replicate n c).length < P ∨ P = 0) := by
    simp only [List.length_replicate, not_or]
    exact ⟨by omega, by omega⟩
  rw [emaSeries, if_neg hguard, List.take_replicate, List.drop_replicate,
    Nat.min_eq_left h, List.sum_replicate]
  have hPne : ((P : ℚ)) ≠ 0 := by
    exact_mod_cast hP.ne'
  have hseed : ((P • c : ℚ)) / (P : ℚ) = c := by
    rw [nsmul_eq_mul]
    field_simp
  rw [hseed, emaFrom_const]

theorem lastValue_replicate_succ (m : ℕ) (c : ℚ) :
    lastValue (List.replicate (m + 1) c) = c := by
  simp [lastValue, List.getLast?_replicate]

theorem ema_const_current (P n : ℕ) (hP : 0 < P) (h : P ≤ n) (c : ℚ) :
    lastValue (emaSeries P (List.replicate n c)) = c := by
  rw [emaSeries_const P n hP h c]
  exact lastValue_replicate_succ (n - P) c

theorem changesOf_replicate (n : ℕ) (c : ℚ) :
    changesOf (List.replicate n c) = List.replicate (n - 1) 0 := by
  cases n with
  | zero => simp [changesOf]
  | succ m =>
    rw [changesOf, List.tail_replicate]
    have hz : (List.replicate (m + 1) c).zip (List.replicate (m + 1 - 1) c)
        = List.replicate m (c, c) := by
      simp [List.zip_replicate]
    rw [hz]
    simp

theorem gainsOf_replicate (n : ℕ) (c : ℚ) :
    gainsOf (List.replicate n c) = List.replicate (n - 1) 0 := by
  rw [gainsOf, changesOf_replicate]
  simp

theorem lossesOf_replicate (n : ℕ) (c : ℚ) :
    lossesOf (List.replicate n c) = List.replicate (n - 1) 0 := by
  rw [lossesOf, changesOf_replicate]
  simp

theorem foldl_wilder_zeros (P : ℕ) :
    ∀ k : ℕ, List.foldl (fun a x => (a * ((P : ℚ) - 1) + x) / (P : ℚ)) 0
      (List.replicate k 0) = 0 := by
  intro k
  induction k with
  | zero => rfl
  | succ j ih =>
    rw [List.replicate_succ, List.foldl_cons]
    simpa using ih

theorem wilderLast_zeros (P m : ℕ) (hP : 0 < P) (h : P ≤ m) :
    wilderLast P (List.replicate m 0) = some 0 := by
  have hguard : ¬((List.replicate m (0:ℚ)).length < P ∨ P = 0) := by
    simp only [List.length_replicate, not_or]
    exact ⟨by omega, by omega⟩
  rw [wilderLast, if_neg hguard, List.take_replicate, List.drop_replicate,
    Nat.min_eq_left h, List.sum_replicate]
  rw [smul_zero, zero_div, foldl_wilder_zeros]

theorem rsiLast_const (n : ℕ) (h : 15 ≤ n) (c : ℚ) :
    rsiLast 14 (List.replicate n c) = some 100 := by
  rw [rsiLast, gainsOf_replicate, lossesOf_replicate,
    wilderLast_zeros 14 (n - 1) (by norm_num) (by omega)]
  simp [rsiFromAverages]

theorem emaFrom_pos {k : ℚ} (hk0 : 0 < k) (hk1 : k ≤ 1) :
    ∀ (l : List ℚ) (prev : ℚ), 0 < prev → (∀ c ∈ l, 0 < c) →
      ∀ x ∈ emaFrom k prev l, 0 < x := by
  intro l
  induction l with
  | nil =>
    intro prev hp _ x hx
    simp [emaFrom] at hx
    rw [hx]; exact hp
  | cons c rest ih =>
    intro prev hp hl x hx
    simp only [emaFrom, List.mem_cons] at hx
    rcases hx with rfl | hx
    · exact hp
    · refine ih (prev * (1 - k) + c * k) ?_
        (fun y hy => hl y (List.mem_cons_of_mem _ hy)) x hx
      have hc : 0 < c := hl c (List.mem_cons_self c rest)
      nlinarith [mul_nonneg hp.le (sub_nonneg.mpr hk1), mul_pos hc hk0]

theorem emaSeries_pos (P : ℕ) (hP : 0 < P) (vals : List ℚ) (hlen : P ≤ vals.length)
    (hpos : ∀ v ∈ vals, 0 < v) : ∀ x ∈ emaSeries P vals, 0 < x := by
  have hguard : ¬(vals.length < P ∨ P = 0) := by
    simp only [not_or]
    exact ⟨by omega, by omega⟩
  rw [emaSeries, if_neg hguard]
  have hPq : (0 : ℚ) < (P : ℚ) := by exact_mod_cast hP
  apply emaFrom_pos
  · positivity
  · rw [div_le_one (by positivity)]
    have : (1 : ℚ) ≤ (P : ℚ) := by exact_mod_cast hP
    linarith
  · apply div_pos _ hPq
    apply List.sum_pos
    · intro x hx
      exact hpos x (List.mem_of_mem_take hx)
    · have : (vals.take P).length = P := by
        rw [List.length_take]
        omega
      intro hnil
      rw [hnil] at this
      simp at this
      omega
  · intro v hv
    exact hpos v (List.mem_of_mem_drop hv)

theorem emaSeries_ne_nil (P : ℕ) (hP : 0 < P) (vals : List ℚ) (hlen : P ≤ vals.length) :
    emaSeries P vals ≠ [] := by
  have hguard : ¬(vals.length < P ∨ P = 0) := by
    simp only [not_or]
    exact ⟨by omega, by omega⟩
  rw [emaSeries, if_neg hguard]
  exact emaFrom_ne_nil _ _ _

theorem lastValue_pos_of (l : List ℚ) (hne : l ≠ []) (hpos : ∀ x ∈ l, 0 < x) :
    0 < lastValue l := by
  rw [lastValue, List.getLast?_eq_getLast l hne]
  exact hpos _ (List.getLast_mem hne)

theorem currentEMA21_pos (candles : List Candle) (hlen : 21 ≤ candles.length)
    (hpos : ∀ c ∈ candles, 0 < c.close) : 0 < currentEMA21 candles := by
  have hlen' : 21 ≤ (closesOf candles).length := by
    simpa [closesOf] using hlen
  have hp : ∀ v ∈ closesOf candles, 0 < v := by
    intro v hv
    simp only [closesOf, List.mem_map] at hv
    obtain ⟨x, hx, rfl⟩ := hv
    exact hpos x hx
  exact lastValue_pos_of _ (emaSeries_ne_nil 21 (by norm_num) _ hlen')
    (emaSeries_pos 21 (by norm_num) _ hlen' hp)

/-! ## Confidence lemmas -/

theorem intCast_le_round {n : ℤ} {x : ℚ} (h : (n : ℚ) ≤ x) : n ≤ round x := by
  calc n = round ((n : ℚ)) := (round_intCast n).symm
    _ ≤ round x := round_mono_rat h

theorem round_le_intCast {n : ℤ} {x : ℚ} (h : x ≤ (n : ℚ)) : round x ≤ n := by
  calc round x ≤ round ((n : ℚ)) := round_mono_rat h
    _ = n := round_intCast n

theorem calculateConfidence_BUY_eval (ema9 ema21 rsi : ℚ) (cross : Bool) :
    calculateConfidence ema9 ema21 rsi .BUY cross
      = ((min (round ((50 : ℚ) + min ((ema9 - ema21) / ema21 * 100 * 10) 20 +
          (if 55 ≤ rsi ∧ rsi ≤ 65 then (15 : ℚ) else 5) +
          (if cross then (15 : ℚ) else 0))) 100 : ℤ) : ℚ) := by
  by_cases hr : 55 ≤ rsi ∧ rsi ≤ 65 <;> by_cases hc : cross = true <;>
    simp [calculateConfidence, hr, hc]

theorem calculateConfidence_SELL_eval (ema9 ema21 rsi : ℚ) (cross : Bool) :
    calculateConfidence ema9 ema21 rsi .SELL cross
      = ((min (round ((50 : ℚ) + min ((ema21 - ema9) / ema21 * 100 * 10) 20 +
          (if 35 ≤ rsi ∧ rsi ≤ 45 then (15 : ℚ) else 5) +
          (if cross then (15 : ℚ) else 0))) 100 : ℤ) : ℚ) := by
  by_cases hr : 35 ≤ rsi ∧ rsi ≤ 45 <;> by_cases hc : cross = true <;>
    simp [calculateConfidence, hr, hc]

theorem confidence_bounds_aux (bonus rsiB crossB : ℚ)
    (hb0 : 0 < bonus) (hb20 : bonus ≤ 20) (hr : rsiB = 15 ∨ rsiB = 5)
    (hc : crossB = 15 ∨ crossB = 0) :
    0 ≤ ((min (round ((50 : ℚ) + bonus + rsiB + crossB)) 100 : ℤ) : ℚ) ∧
      ((min (round ((50 : ℚ) + bonus + rsiB + crossB)) 100 : ℤ) : ℚ) ≤ 100 := by
  have hsum_le : (50 : ℚ) + bonus + rsiB + crossB ≤ 100 := by
    rcases hr with hr | hr <;> rcases hc with hc | hc <;> rw [hr, hc] <;> linarith
  have hsum_ge : ((50 : ℤ) : ℚ) ≤ 50 + bonus + rsiB + crossB := by
    rcases hr with hr | hr <;> rcases hc with hc | hc <;> rw [hr, hc] <;> push_cast <;> linarith
  have h1 : round ((50 : ℚ) + bonus + rsiB + crossB) ≤ 100 :=
    round_le_intCast (by push_cast; linarith)
  have h2 : (50 : ℤ) ≤ round ((50 : ℚ) + bonus + rsiB + crossB) := intCast_le_round hsum_ge
  constructor
  · have h : (0 : ℤ) ≤ min (round ((50 : ℚ) + bonus + rsiB + crossB)) 100 :=
      le_min (by omega) (by omega)
    exact_mod_cast h
  · have h : min (round ((50 : ℚ) + bonus + rsiB + crossB)) 100 ≤ 100 := min_le_right _ _
    exact_mod_cast h

theorem calculateConfidence_BUY_bounds (ema9 ema21 rsi : ℚ) (cross : Bool)
    (h21 : 0 < ema21) (hlt : ema21 < ema9) :
    0 ≤ calculateConfidence ema9 ema21 rsi .BUY cross ∧
      calculateConfidence ema9 ema21 rsi .BUY cross ≤ 100 := by
  rw [calculateConfidence_BUY_eval]
  have hsep : 0 < (ema9 - ema21) / ema21 * 100 :=
    mul_pos (div_pos (sub_pos.mpr hlt) h21) (by norm_num)
  apply confidence_bounds_aux
  · exact lt_min (by positivity) (by norm_num)
  · exact min_le_right _ _
  · by_cases hr : 55 ≤ rsi ∧ rsi ≤ 65 <;> simp [hr]
  · cases cross <;> simp

theorem calculateConfidence_SELL_bounds (ema9 ema21 rsi : ℚ) (cross : Bool)
    (h21 : 0 < ema21) (hlt : ema9 < ema21) :
    0 ≤ calculateConfidence ema9 ema21 rsi .SELL cross ∧
      calculateConfidence ema9 ema21 rsi .SELL cross ≤ 100 := by
  rw [calculateConfidence_SELL_eval]
  have hsep : 0 < (ema21 - ema9) / ema21 * 100 :=
    mul_pos (div_pos (sub_pos.mpr hlt) h21) (by norm_num)
  apply confidence_bounds_aux
  · exact lt_min (by positivity) (by norm_num)
  · exact min_le_right _ _
  · by_cases hr : 35 ≤ rsi ∧ rsi ≤ 45 <;> simp [hr]
  · cases cross <;> simp

/-! ## C5: signal rule order -/

/-- C5: for every accepted candle sequence the signal kind follows the first
matching rule in order: BUY when fast is above slow with RSI strictly between
50 and 70, else SELL when fast is below slow with RSI strictly between 30 and
50, else HOLD; in the HOLD fallthrough the confidence is 0. -/
theorem signal_rule_order :
    ∀ (candles : List Candle), 21 ≤ candles.length →
      (analyzeMarket candles).map Signal.signal
          = .ok (if currentEMA21 candles < currentEMA9 candles ∧
                50 < currentRSIof candles ∧ currentRSIof candles < 70 then SignalKind.BUY
            else if currentEMA9 candles < currentEMA21 candles ∧
                30 < currentRSIof candles ∧ currentRSIof candles < 50 then SignalKind.SELL
            else SignalKind.HOLD) ∧
      ((analyzeMarket candles).map Signal.signal = .ok SignalKind.HOLD →
        (analyzeMarket candles).map Signal.confidence = .ok 0) := by
  intro candles h
  have hlen : ¬ candles.length < 21 := by omega
  by_cases h1 : currentEMA21 candles < currentEMA9 candles ∧
      50 < currentRSIof candles ∧ currentRSIof candles < 70
  · constructor
    · simp [analyzeMarket, hlen, h1, Except.map]
    · intro hsig
      simp [analyzeMarket, hlen, h1, Except.map] at hsig
  · by_cases h2 : currentEMA9 candles < currentEMA21 candles ∧
        30 < currentRSIof candles ∧ currentRSIof candles < 50
    · constructor
      · simp [analyzeMarket, hlen, h1, h2, Except.map]
      · intro hsig
        simp [analyzeMarket, hlen, h1, h2, Except.map] at hsig
    · constructor
      · simp [analyzeMarket, hlen, h1, h2, Except.map]
      · intro _
        simp [analyzeMarket, hlen, h1, h2, Except.map]

/-- C5 witness: twenty-one flat candles are accepted and classified by the
fallthrough rule (here HOLD, the two strict conditions failing), with
confidence 0. -/
theorem signal_rule_order_witness :
    (analyzeMarket flatCandles).map Signal.signal
        = .ok (if currentEMA21 flatCandles < currentEMA9 flatCandles ∧
              50 < currentRSIof flatCandles ∧ currentRSIof flatCandles < 70 then SignalKind.BUY
          else if currentEMA9 flatCandles < currentEMA21 flatCandles ∧
              30 < currentRSIof flatCandles ∧ currentRSIof flatCandles < 50 then SignalKind.SELL
          else SignalKind.HOLD) ∧
      ((analyzeMarket flatCandles).map Signal.signal = .ok SignalKind.HOLD →
        (analyzeMarket flatCandles).map Signal.confidence = .ok 0) :=
  signal_rule_order flatCandles (by simp [flatCandles])

/-! ## C10: constant close prices -/

/-- C10: over any accepted candle sequence whose closes all equal one constant,
both current EMA values equal that constant, the reported indicator snapshot
carries the boundary-rounded constant for both EMA fields, the trend is
NEUTRAL, the signal is HOLD with confidence 0, and the reported RSI is the
in-range neutral clamp 100 (average loss zero) rather than an error. -/
theorem constant_closes_hold :
    ∀ (candles : List Candle) (c : ℚ), 21 ≤ candles.length →
      (∀ x ∈ candles, x.close = c) →
      currentEMA9 candles = c ∧ currentEMA21 candles = c ∧
      (analyzeMarket candles).map (fun s => s.indicators.ema9) = .ok (roundTo 6 c) ∧
      (analyzeMarket candles).map (fun s => s.indicators.ema21) = .ok (roundTo 6 c) ∧
      (analyzeMarket candles).map Signal.trend = .ok Trend.NEUTRAL ∧
      (analyzeMarket candles).map Signal.signal = .ok SignalKind.HOLD ∧
      (analyzeMarket candles).map Signal.confidence = .ok 0 ∧
      (analyzeMarket candles).map (fun s => s.indicators.rsi) = .ok 100 ∧
      (0 : ℚ) ≤ 100 ∧ (100 : ℚ) ≤ 100 := by
  intro candles c hlen hcl
  have hclose : closesOf candles = List.replicate candles.length c := by
    rw [List.eq_replicate_iff]
    constructor
    · simp [closesOf]
    · intro b hb
      simp only [closesOf, List.mem_map] at hb
      obtain ⟨x, hx, rfl⟩ := hb
      exact hcl x hx
  have he9 : currentEMA9 candles = c := by
    rw [currentEMA9, hclose]
    exact ema_const_current 9 _ (by norm_num) (by omega) c
  have he21 : currentEMA21 candles = c := by
    rw [currentEMA21, hclose]
    exact ema_const_current 21 _ (by norm_num) (by omega) c
  have hrsi : currentRSIof candles = 100 := by
    rw [currentRSIof, hclose, rsiLast_const _ (by omega) c]
    rfl
  have hnl : ¬ candles.length < 21 := by omega
  have hlt : ¬ currentEMA21 candles < currentEMA9 candles := by
    rw [he9, he21]; exact lt_irrefl c
  have hlt2 : ¬ currentEMA9 candles < currentEMA21 candles := by
    rw [he9, he21]; exact lt_irrefl c
  have hrsi100 : roundTo 2 (100 : ℚ) = 100 := by
    have h := roundTo_intCast 2 100
    exact_mod_cast h
  refine ⟨he9, he21, ?_, ?_, ?_, ?_, ?_, ?_, by norm_num, by norm_num⟩ <;>
    simp [analyzeMarket, hnl, hlt, hlt2, trendOf, Except.map, he9, he21, hrsi, hrsi100]

/-- C10 witness: twenty-one flat candles at price 1 realize every hypothesis
with constant 1. -/
theorem constant_closes_hold_witness :
    currentEMA9 flatCandles = 1 ∧ currentEMA21 flatCandles = 1 ∧
      (analyzeMarket flatCandles).map (fun s => s.indicators.ema9) = .ok (roundTo 6 1) ∧
      (analyzeMarket flatCandles).map (fun s => s.indicators.ema21) = .ok (roundTo 6 1) ∧
      (analyzeMarket flatCandles).map Signal.trend = .ok Trend.NEUTRAL ∧
      (analyzeMarket flatCandles).map Signal.signal = .ok SignalKind.HOLD ∧
      (analyzeMarket flatCandles).map Signal.confidence = .ok 0 ∧
      (analyzeMarket flatCandles).map (fun s => s.indicators.rsi) = .ok 100 ∧
      (0 : ℚ) ≤ 100 ∧ (100 : ℚ) ≤ 100 :=
  constant_closes_hold flatCandles 1 (by simp [flatCandles])
    (by intro x hx; simp [flatCandles, List.eq_of_mem_replicate hx])

/-! ## C6: confidence scoring (corrected) -/

/-- C6 counterexample: at fast EMA 1.0015, slow EMA 1, RSI 60, no crossover,
the additive score is 66.5 but the code reports the rounded 67, so the
confidence does not equal base 50 plus the bonuses as claimed. -/
theorem confidence_claim_false :
    calculateConfidence (2003 / 2000) 1 60 .BUY false = 67 ∧
      (50 : ℚ) + min (|((2003 / 2000 : ℚ) - 1) / 1 * 100| * 10) 20 +
          (if (55 : ℚ) ≤ 60 ∧ (60 : ℚ) ≤ 65 then (15 : ℚ) else 5) +
          (if false then (15 : ℚ) else 0) = 133 / 2 ∧
      (67 : ℚ) ≠ 133 / 2 := by
  refine ⟨?_, by norm_num [min_def, abs_of_pos], by norm_num⟩
  norm_num [calculateConfidence, round_eq, min_def]

/-- C6 (amended): for BUY signals (fast above slow, slow positive) and SELL
signals (mirror) the confidence equals the additive score of base 50, the
trend bonus min(|percentage separation| times 10, 20), the RSI sweet-spot
bonus of 15 or 5, and the crossover bonus of 15, rounded to the nearest
integer and then capped at 100; and every signal analyzeMarket produces from
candles with positive closes carries a confidence in [0, 100]. -/
theorem confidence_formula :
    ∀ (ema9 ema21 rsi : ℚ) (cross : Bool),
      0 < ema21 →
      (ema21 < ema9 →
        calculateConfidence ema9 ema21 rsi .BUY cross
          = ((min (round ((50 : ℚ) + min (|(ema9 - ema21) / ema21 * 100| * 10) 20 +
              (if 55 ≤ rsi ∧ rsi ≤ 65 then (15 : ℚ) else 5) +
              (if cross then (15 : ℚ) else 0))) 100 : ℤ) : ℚ)) ∧
      (ema9 < ema21 →
        calculateConfidence ema9 ema21 rsi .SELL cross
          = ((min (round ((50 : ℚ) + min (|(ema9 - ema21) / ema21 * 100| * 10) 20 +
              (if 35 ≤ rsi ∧ rsi ≤ 45 then (15 : ℚ) else 5) +
              (if cross then (15 : ℚ) else 0))) 100 : ℤ) : ℚ)) ∧
      (∀ (candles : List Candle), (∀ x ∈ candles, 0 < x.close) → 21 ≤ candles.length →
        ∃ q, (analyzeMarket candles).map Signal.confidence = .ok q ∧ 0 ≤ q ∧ q ≤ 100) := by
  intro ema9 ema21 rsi cross h21
  refine ⟨?_, ?_, ?_⟩
  · intro hlt
    have habs : |(ema9 - ema21) / ema21 * 100| = (ema9 - ema21) / ema21 * 100 :=
      abs_of_pos (mul_pos (div_pos (sub_pos.mpr hlt) h21) (by norm_num))
    rw [habs, calculateConfidence_BUY_eval]
  · intro hlt
    have hneg : (ema9 - ema21) / ema21 * 100 < 0 :=
      mul_neg_of_neg_of_pos (div_neg_of_neg_of_pos (sub_neg.mpr hlt) h21) (by norm_num)
    have habs : |(ema9 - ema21) / ema21 * 100| = (ema21 - ema9) / ema21 * 100 := by
      rw [abs_of_neg hneg]; ring
    rw [habs, calculateConfidence_SELL_eval]
  · intro candles hpos hlen
    have hnl : ¬ candles.length < 21 := by omega
    have hpos21 : 0 < currentEMA21 candles := currentEMA21_pos candles hlen hpos
    by_cases h1 : currentEMA21 candles < currentEMA9 candles ∧
        50 < currentRSIof candles ∧ currentRSIof candles < 70
    · have hb := calculateConfidence_BUY_bounds (currentEMA9 candles) (currentEMA21 candles)
        (currentRSIof candles) (bullishCrossover candles) hpos21 h1.1
      exact ⟨_, by simp [analyzeMarket, hnl, h1, Except.map], hb.1, hb.2⟩
    · by_cases h2 : currentEMA9 candles < currentEMA21 candles ∧
          30 < currentRSIof candles ∧ currentRSIof candles < 50
      · have hb := calculateConfidence_SELL_bounds (currentEMA9 candles) (currentEMA21 candles)
          (currentRSIof candles) (bearishCrossover candles) hpos21 h2.1
        exact ⟨_, by simp [analyzeMarket, hnl, h1, h2, Except.map], hb.1, hb.2⟩
      · exact ⟨0, by simp [analyzeMarket, hnl, h1, h2, Except.map], by norm_num, by norm_num⟩

/-- C6 witness: the amended formula at fast 1.0015, slow 1, RSI 60 without
crossover, and the [0, 100] range over the flat 21-candle sequence. -/
theorem confidence_formula_witness :
    calculateConfidence (2003 / 2000) 1 60 .BUY false
        = ((min (round ((50 : ℚ) + min (|((2003 / 2000 : ℚ) - 1) / 1 * 100| * 10) 20 +
            (if (55 : ℚ) ≤ 60 ∧ (60 : ℚ) ≤ 65 then (15 : ℚ) else 5) +
            (if false then (15 : ℚ) else 0))) 100 : ℤ) : ℚ) ∧
      (∃ q, (analyzeMarket flatCandles).map Signal.confidence = .ok q ∧ 0 ≤ q ∧ q ≤ 100) := by
  constructor
  · exact (confidence_formula (2003 / 2000) 1 60 false (by norm_num)).1 (by norm_num)
  · exact (confidence_formula 1 1 1 false (by norm_num)).2.2 flatCandles
      (by
        intro x hx
        simp only [flatCandles] at hx
        rw [List.eq_of_mem_replicate hx]
        norm_num)
      (by simp [flatCandles])

/-! ## C2: stop-loss, entry, take-profit ordering -/

theorem tradeParameters_fields (sig : SignalKind) (sd : Side) (e sl tp p : ℚ) :
    (tradeParameters sig sd e sl tp p).entry = roundTo 6 e ∧
      (tradeParameters sig sd e sl tp p).stopLoss = some (roundTo 6 sl) ∧
      (tradeParameters sig sd e sl tp p).takeProfit = some (roundTo 6 tp) := by
  simp [tradeParameters]

/-- C2: an accepted BUY call with positive risk distance returns parameters
with stopLoss at or below entry at or below takeProfit; an accepted SELL call
with positive risk distance returns the mirror ordering. -/
theorem risk_ordering :
    ∀ (s : Signal) (candles : List Candle) (o : Option ℚ) (p : ℚ),
      5 ≤ candles.length → 0 < resolveEntry s o →
      (s.signal = .BUY → 0 < resolveEntry s o - buyStopLoss candles →
        ∃ r, calculateDynamicRisk s candles o p = .ok r ∧
          ∃ sl, r.stopLoss = some sl ∧ ∃ tp, r.takeProfit = some tp ∧
            sl ≤ r.entry ∧ r.entry ≤ tp) ∧
      (s.signal = .SELL → 0 < sellStopLoss candles - resolveEntry s o →
        ∃ r, calculateDynamicRisk s candles o p = .ok r ∧
          ∃ sl, r.stopLoss = some sl ∧ ∃ tp, r.takeProfit = some tp ∧
            tp ≤ r.entry ∧ r.entry ≤ sl) := by
  intro s candles o p hlen hpos
  have h5 : ¬ candles.length < 5 := by omega
  have he : ¬ resolveEntry s o ≤ 0 := not_le.mpr hpos
  constructor
  · intro hb hd
    obtain ⟨hE, hS, hT⟩ := tradeParameters_fields .BUY .LONG (resolveEntry s o)
      (buyStopLoss candles)
      (resolveEntry s o + (resolveEntry s o - buyStopLoss candles) * 2) p
    refine ⟨tradeParameters .BUY .LONG (resolveEntry s o) (buyStopLoss candles)
        (resolveEntry s o + (resolveEntry s o - buyStopLoss candles) * 2) p,
      by simp [calculateDynamicRisk, h5, he, hb],
      roundTo 6 (buyStopLoss candles), hS,
      roundTo 6 (resolveEntry s o + (resolveEntry s o - buyStopLoss candles) * 2), hT,
      ?_, ?_⟩
    · rw [hE]
      exact roundTo_mono (by linarith)
    · rw [hE]
      exact roundTo_mono (by linarith)
  · intro hb hd
    obtain ⟨hE, hS, hT⟩ := tradeParameters_fields .SELL .SHORT (resolveEntry s o)
      (sellStopLoss candles)
      (resolveEntry s o - (sellStopLoss candles - resolveEntry s o) * 2) p
    refine ⟨tradeParameters .SELL .SHORT (resolveEntry s o) (sellStopLoss candles)
        (resolveEntry s o - (sellStopLoss candles - resolveEntry s o) * 2) p,
      by simp [calculateDynamicRisk, h5, he, hb],
      roundTo 6 (sellStopLoss candles), hS,
      roundTo 6 (resolveEntry s o - (sellStopLoss candles - resolveEntry s o) * 2), hT,
      ?_, ?_⟩
    · rw [hE]
      exact roundTo_mono (by linarith)
    · rw [hE]
      exact roundTo_mono (by linarith)

/-- C2 witness: the BUY ordering at entry 105 over lows 100, and the SELL
ordering at entry 105 over highs 110. -/
theorem risk_ordering_witness :
    (∃ r, calculateDynamicRisk buySignalX candlesX none 100 = .ok r ∧
      ∃ sl, r.stopLoss = some sl ∧ ∃ tp, r.takeProfit = some tp ∧
        sl ≤ r.entry ∧ r.entry ≤ tp) ∧
      (∃ r, calculateDynamicRisk sellSignalX candlesX none 100 = .ok r ∧
        ∃ sl, r.stopLoss = some sl ∧ ∃ tp, r.takeProfit = some tp ∧
          tp ≤ r.entry ∧ r.entry ≤ sl) := by
  constructor
  · exact (risk_ordering buySignalX candlesX none 100 (by simp [candlesX])
      (by norm_num [resolveEntry, buySignalX])).1 rfl
      (by norm_num [resolveEntry, buySignalX, buyStopLoss, minLow, last5, bufferPercent,
        candlesX, List.replicate, List.min?_cons'])
  · exact (risk_ordering sellSignalX candlesX none 100 (by simp [candlesX])
      (by norm_num [resolveEntry, sellSignalX])).2 rfl
      (by norm_num [resolveEntry, sellSignalX, sellStopLoss, maxHigh, last5, bufferPercent,
        candlesX, List.replicate, List.max?_cons'])
